import Mathlib

/-!
Verification of the carbonclock paginated-fetch aggregator.

This file embeds the shared core logic of `carbonclock.py` and `server.py`
(payload row extraction, key-space walking, fuel-field detection, dotted-path
value coercion, the paginated fetch loop, unit conversion and scaling, and the
background polling state of the Flask server) as executable Lean definitions,
and proves the frozen claims about them.

Modelling conventions:
* JSON values are the inductive `JVal`; Python dicts become association lists
  in insertion order (Python 3.7+ dicts preserve insertion order), Python
  lists become Lean lists.  Python `bool` is a subclass of `int`, so boolean
  leaves count as numeric scalars exactly where the source's
  `isinstance(v, (int, float, str))` / `isinstance(v, (int, float))` checks do.
* Floating-point arithmetic is modelled over `ℚ`; every constant in the claims
  (0.926, 0.45, 35, 0.03241, 0.04167) is exactly representable.
* `float(...)` string parsing is modelled by `pyFloat`, covering the decimal
  fragment of Python's parser (optional sign, digits, at most one decimal
  point); parse failure is `none`, matching the `try/except` that returns
  `None`.
* The network is a page source `ℕ → Option JVal` (page number to decoded
  payload, `none` = transport failure / non-2xx); the unbounded `while True`
  pagination loop is embedded with explicit fuel, where an exhausted fuel
  returns `none` at the outer `Option` (the loop did not terminate within the
  given bound) and is distinguished from a completed cycle.
-/

namespace CarbonClock

/-- A JSON-like value: the data model of one API `Record` and of whole page
payloads.  `obj` keeps fields in insertion order as an association list. -/
inductive JVal where
  | null
  | bool (b : Bool)
  | num (q : ℚ)
  | str (s : String)
  | arr (elems : List JVal)
  | obj (fields : List (String × JVal))
deriving Repr

/-- Python `isinstance(x, dict)`. -/
def JVal.isDict : JVal → Bool
  | .obj _ => true
  | _ => false

/-- First value bound to `key` in an association list: Python `d.get(key)`
(Python dicts have unique keys, so first-match lookup is faithful on their
image). -/
def jget (fields : List (String × JVal)) (key : String) : Option JVal :=
  (fields.find? (fun p => p.1 == key)).map (fun p => p.2)

/-- Python `isinstance(v, (int, float, str, dict, list))` — true for every
value except `None` (note `bool` is a subclass of `int`). -/
def isRowish : JVal → Bool
  | .null => false
  | _ => true

/-- `iter_payload_rows` (carbonclock.py lines 46-67 / server.py lines 60-78):
normalize a decoded payload into the list of row dicts it carries. -/
def iter_payload_rows (payload : JVal) : List JVal :=
  match payload with
  | .arr xs => xs.filter JVal.isDict
  | .obj fields =>
    match jget fields "result" with
    | some (.arr xs) => xs.filter JVal.isDict
    | some (.obj f2) => [JVal.obj f2]
    | _ =>
      match jget fields "data" with
      | some (.arr xs) => xs.filter JVal.isDict
      | some (.obj f2) => [JVal.obj f2]
      | _ =>
        if fields.any (fun p => isRowish p.2) then [JVal.obj fields] else []
  | _ => []

mutual
/-- `walk_keys` (carbonclock.py lines 70-80 / server.py lines 80-89): all
(dotted key, leaf value) pairs of a nested value, depth-first; list nesting is
transparent (children keep the parent's accumulated key). -/
def walk_keys (obj : JVal) (pfx : String) : List (String × JVal) :=
  match obj with
  | .obj fields => walk_fields fields pfx
  | .arr elems => walk_elems elems pfx
  | v => [(pfx, v)]

/-- Dict branch of `walk_keys`: recurse per field with the extended key. -/
def walk_fields (fields : List (String × JVal)) (pfx : String) :
    List (String × JVal) :=
  match fields with
  | [] => []
  | (k, v) :: rest =>
    walk_keys v (if pfx = "" then k else pfx ++ "." ++ k) ++ walk_fields rest pfx

/-- List branch of `walk_keys`: recurse per element with the same key. -/
def walk_elems (elems : List JVal) (pfx : String) : List (String × JVal) :=
  match elems with
  | [] => []
  | v :: rest => walk_keys v pfx ++ walk_elems rest pfx
end

/-- Python `s.lower()` (ASCII case folding, matching every string the program
compares). -/
def pyLower (s : String) : String :=
  String.mk (s.data.map Char.toLower)

/-- Split a character list at every occurrence of `sep`, keeping empty
groups: the semantics of Python `s.split(sep)` for a one-character `sep`. -/
def splitOnChar (sep : Char) : List Char → List (List Char)
  | [] => [[]]
  | c :: cs =>
    let r := splitOnChar sep cs
    if c = sep then [] :: r
    else
      match r with
      | [] => [[c]]
      | g :: gs => (c :: g) :: gs

/-- Python `dotted.split(".")`. -/
def pySplitDot (s : String) : List String :=
  (splitOnChar '.' s.data).map String.mk

/-- Python `s.strip()`: drop leading and trailing whitespace. -/
def pyStrip (s : String) : String :=
  String.mk
    (((s.data.dropWhile Char.isWhitespace).reverse.dropWhile
      Char.isWhitespace).reverse)

/-- Python `s.replace(",", "")`: drop every comma. -/
def removeCommas (s : String) : String :=
  String.mk (s.data.filter (fun c => c ≠ ','))

/-- The ranked preference list `PREFERRED_KEYS` (identical in both files). -/
def PREFERRED_KEYS : List String :=
  ["total_fuel_consumed", "data.total_fuel_consumed", "fuel_consumed",
   "total_fuel", "fuel_total", "fuel"]

/-- Python `isinstance(v, (int, float, str))` for the candidate filter of
`detect_fuel_key` (booleans qualify, being `int` instances; the additional
`v is not None` test in the source is redundant and has no model content). -/
def isScalarLeaf : JVal → Bool
  | .num _ => true
  | .str _ => true
  | .bool _ => true
  | _ => false

/-- Does `cs` start with `pat` (character-wise)? -/
def charsStartWith : List Char → List Char → Bool
  | [], _ => true
  | _ :: _, [] => false
  | p :: ps, c :: cs => p == c && charsStartWith ps cs

/-- Does `cs` contain `pat` as a contiguous run? -/
def charsContain (pat : List Char) : List Char → Bool
  | [] => pat.isEmpty
  | c :: cs => charsStartWith pat (c :: cs) || charsContain pat cs

/-- Python's substring test `pat in s`. -/
def containsSub (s pat : String) : Bool :=
  charsContain pat.toList s.toList

/-- The candidate key set of `detect_fuel_key`: lower-cased non-empty dotted
paths of scalar non-null leaves over the sample rows.  The source collects
them into a dict/set; claims depend only on membership and on first textual
match, so the model keeps the deterministic insertion sequence (possible
duplicates do not affect either). -/
def candidate_keys (sample_rows : List JVal) : List String :=
  match sample_rows with
  | [] => []
  | row :: rest =>
    ((walk_keys row "").filterMap (fun kv =>
      if kv.1 = "" then none
      else if isScalarLeaf kv.2 then some (pyLower kv.1) else none))
      ++ candidate_keys rest

/-- `detect_fuel_key` (carbonclock.py lines 83-104 / server.py lines 91-104):
tier 1 returns the first preference-list entry (original casing) whose
lower-cased form is a candidate; tier 2 falls back to the first candidate
containing "fuel" together with "consum" or "total". -/
def detect_fuel_key (sample_rows : List JVal) : Option String :=
  let cands := candidate_keys sample_rows
  match PREFERRED_KEYS.find? (fun p => cands.contains (pyLower p)) with
  | some p => some p
  | none =>
    cands.find? (fun k =>
      containsSub k "fuel" && (containsSub k "consum" || containsSub k "total"))

/-- Value of an unsigned digit run, base 10. -/
def digitsVal (cs : List Char) : ℕ :=
  cs.foldl (fun a c => a * 10 + (c.toNat - 48)) 0

/-- Parse an unsigned decimal literal (digits with at most one decimal point,
at least one digit overall), the unsigned core of Python `float(...)`. -/
def parseUnsigned (cs : List Char) : Option ℚ :=
  let intPart := cs.takeWhile (fun c => c ≠ '.')
  let rest := cs.dropWhile (fun c => c ≠ '.')
  match rest with
  | [] =>
    if intPart ≠ [] && intPart.all Char.isDigit then
      some (digitsVal intPart : ℚ)
    else none
  | _ :: frac =>
    if intPart.all Char.isDigit && frac.all Char.isDigit
        && (intPart ≠ [] || frac ≠ []) then
      some ((digitsVal intPart : ℚ) + (digitsVal frac : ℚ) / (10 ^ frac.length))
    else none

/-- The decimal fragment of Python `float(s)` as used on already-stripped,
comma-free strings: optional sign then an unsigned decimal literal; anything
else fails (`none`, standing for the `ValueError` the source swallows). -/
def pyFloat (s : String) : Option ℚ :=
  match s.toList with
  | '+' :: rest => parseUnsigned rest
  | '-' :: rest => (parseUnsigned rest).map (fun q => -q)
  | cs => parseUnsigned cs

/-- The final coercion block of `get_value_by_dotted` (carbonclock.py lines
124-134): `None` and non-scalars give `none`; numbers (including booleans,
which are `int` instances) give their value; strings are stripped, have
thousands-separator commas removed, and are parsed, with the empty string and
parse failures giving `none`. -/
def coerce_leaf : JVal → Option ℚ
  | .null => none
  | .num q => some q
  | .bool b => some (if b then 1 else 0)
  | .str s =>
    let s' := removeCommas (pyStrip s)
    if s' = "" then none else pyFloat s'
  | _ => none

/-- The descent loop of `get_value_by_dotted`: walk the dotted parts through
dicts; on any failing step, deep-scan the current value once for a leaf whose
full dotted key equals the whole original path case-insensitively, and
continue from that leaf; fail with `none` otherwise. -/
def descend (dotted : String) : List String → JVal → Option JVal
  | [], cur => some cur
  | p :: rest, cur =>
    match cur with
    | .obj fields =>
      match jget fields p with
      | some v => descend dotted rest v
      | none =>
        match (walk_keys (.obj fields) "").find?
            (fun kv => pyLower kv.1 == pyLower dotted) with
        | some kv => descend dotted rest kv.2
        | none => none
    | other =>
      match (walk_keys other "").find?
          (fun kv => pyLower kv.1 == pyLower dotted) with
      | some kv => descend dotted rest kv.2
      | none => none

/-- `get_value_by_dotted` (carbonclock.py lines 107-134 / server.py lines
106-131): descend the dotted path and coerce the reached leaf. -/
def get_value_by_dotted (row : JVal) (dotted : String) : Option ℚ :=
  match descend dotted (pySplitDot dotted) row with
  | none => none
  | some cur => coerce_leaf cur

/-- `SAVINGS_PER_KG = 0.926` (kg CO2 saved per kg LNG), identical in both
files. -/
def SAVINGS_PER_KG : ℚ := 926 / 1000

/-- The fatal error kinds one fetch cycle can surface: non-2xx/transport
failure (`resp.raise_for_status()` / `requests` exceptions), the
`RuntimeError` for an undetected fuel field, and the `ValueError` of
`lng_to_kg`. -/
inductive CycleErr where
  | transport
  | fieldNotDetected
  | invalidUnit
deriving DecidableEq, Repr

/-- Result of a fallible computation in one cycle: a value or a fatal
`CycleErr` (the model of a Python exception propagating to the caller). -/
inductive CycleRes (α : Type) where
  | ok (val : α)
  | err (e : CycleErr)
deriving DecidableEq, Repr

/-- `lng_to_kg` (carbonclock.py lines 137-142 / server.py lines 133-138):
identity for unit "kg" (case-insensitive), multiply by the density for "L",
`ValueError` otherwise.  The function takes no transport/network input. -/
def lng_to_kg (v : ℚ) (unit : String) (density_kg_per_L : ℚ) : CycleRes ℚ :=
  if pyLower unit = "kg" then .ok v
  else if pyLower unit = "l" then .ok (v * density_kg_per_L)
  else .err .invalidUnit

/-- One record's contribution in carbonclock.py's inner loop (lines 199-202):
add the coerced value when it is not `None`, otherwise leave the sum
unchanged. -/
def cc_record_step (key : String) (s : ℚ) (r : JVal) : ℚ :=
  match get_value_by_dotted r key with
  | some v => s + v
  | none => s

/-- carbonclock.py's per-page sum `page_sum` (lines 198-203), started from
`0.0` and later added onto `total_input`. -/
def cc_page_sum (key : String) (rows : List JVal) : ℚ :=
  rows.foldl (cc_record_step key) 0

/-- server.py's per-page accumulation (lines 181-184): fold directly onto
`total_input`, adding only truthy coerced values (`if v:`), which also skips
`0.0`. -/
def srv_page_total (key : String) (rows : List JVal) (total : ℚ) : ℚ :=
  rows.foldl
    (fun t r =>
      match get_value_by_dotted r key with
      | some v => if v = 0 then t else t + v
      | none => t)
    total

/-- The fuel-key resolution step at the top of each page iteration
(carbonclock.py lines 189-196 / server.py lines 177-180): keep an already
detected key; otherwise detect from the first 10 rows and fail the cycle on a
falsy result (`None`, or the empty string, which `detect_fuel_key` never
actually produces). -/
def resolve_fuel_key (fkey : Option String) (rows : List JVal) :
    CycleRes String :=
  match fkey with
  | some k => .ok k
  | none =>
    match detect_fuel_key (rows.take 10) with
    | none => .err .fieldNotDetected
    | some k => if k = "" then .err .fieldNotDetected else .ok k

/-- Outcome of a terminated pagination loop: the accumulated `total_input`
and the number of page requests issued. -/
structure LoopOut where
  total_input : ℚ
  requests : ℕ
deriving DecidableEq, Repr

/-- The `while True` pagination loop of carbonclock.py's `fetch_and_sum`
(lines 168-207), with the network as `src : ℕ → Option JVal` (page number to
decoded payload; `none` models a transport failure / non-2xx response) and
explicit `fuel` bounding the number of iterations: the outer `none` means the
loop did not finish within `fuel` iterations. -/
def cc_loop (src : ℕ → Option JVal) (psize : ℕ) :
    ℕ → ℕ → Option String → ℚ → ℕ → Option (CycleRes LoopOut)
  | 0, _, _, _, _ => none
  | fuel + 1, pnum, fkey, total, reqs =>
    match src pnum with
    | none => some (.err .transport)
    | some payload =>
      let rows := iter_payload_rows payload
      if rows.isEmpty then some (.ok ⟨total, reqs + 1⟩)
      else
        match resolve_fuel_key fkey rows with
        | .err e => some (.err e)
        | .ok k =>
          let total' := total + cc_page_sum k rows
          if rows.length < psize then some (.ok ⟨total', reqs + 1⟩)
          else cc_loop src psize fuel (pnum + 1) (some k) total' (reqs + 1)

/-- The same pagination loop as implemented in server.py's `fetch_and_sum`
(lines 158-187); the only difference from `cc_loop` is the per-page
accumulation (`if v:` instead of `if v is not None:`, folded directly onto
the running total). -/
def srv_loop (src : ℕ → Option JVal) (psize : ℕ) :
    ℕ → ℕ → Option String → ℚ → ℕ → Option (CycleRes LoopOut)
  | 0, _, _, _, _ => none
  | fuel + 1, pnum, fkey, total, reqs =>
    match src pnum with
    | none => some (.err .transport)
    | some payload =>
      let rows := iter_payload_rows payload
      if rows.isEmpty then some (.ok ⟨total, reqs + 1⟩)
      else
        match resolve_fuel_key fkey rows with
        | .err e => some (.err e)
        | .ok k =>
          let total' := srv_page_total k rows total
          if rows.length < psize then some (.ok ⟨total', reqs + 1⟩)
          else srv_loop src psize fuel (pnum + 1) (some k) total' (reqs + 1)

/-- carbonclock.py `fetch_and_sum` (lines 145-211): run the pagination loop
from page 1 with no detected key and total `0.0`, then convert the summed
input through `lng_to_kg` and scale by `SAVINGS_PER_KG / 1000`. -/
def cc_fetch_and_sum (src : ℕ → Option JVal) (psize : ℕ) (lng_unit : String)
    (lng_density : ℚ) (fuel : ℕ) : Option (CycleRes ℚ) :=
  match cc_loop src psize fuel 1 none 0 0 with
  | none => none
  | some (.err e) => some (.err e)
  | some (.ok out) =>
    match lng_to_kg out.total_input lng_unit lng_density with
    | .err e => some (.err e)
    | .ok total_lng_kg => some (.ok (total_lng_kg * SAVINGS_PER_KG / 1000))

/-- server.py `fetch_and_sum` (lines 140-191): identical pipeline over
`srv_loop`. -/
def srv_fetch_and_sum (src : ℕ → Option JVal) (psize : ℕ) (lng_unit : String)
    (lng_density : ℚ) (fuel : ℕ) : Option (CycleRes ℚ) :=
  match srv_loop src psize fuel 1 none 0 0 with
  | none => none
  | some (.err e) => some (.err e)
  | some (.ok out) =>
    match lng_to_kg out.total_input lng_unit lng_density with
    | .err e => some (.err e)
    | .ok total_lng_kg => some (.ok (total_lng_kg * SAVINGS_PER_KG / 1000))

/-- `UI_OFFSET` (server.py line 36): tons added before display. -/
def UI_OFFSET : ℚ := 0

/-- The polling state of server.py: the module globals `LAST_VALUE` (line 39)
and `LAST_TS` (line 40). -/
structure PollState where
  last_value : Option ℚ
  last_ts : ℚ
deriving DecidableEq, Repr

/-- One iteration of `background_updater` (server.py lines 194-220) given the
outcome of its `fetch_and_sum` call and the current wall-clock time: a
successful cycle overwrites `LAST_VALUE` with `raw_value + UI_OFFSET` and
stamps `LAST_TS`; any exception is caught and the state is left untouched. -/
def background_step (st : PollState) (outcome : CycleRes ℚ) (now : ℚ) :
    PollState :=
  match outcome with
  | .ok raw_value => ⟨some (raw_value + UI_OFFSET), now⟩
  | .err _ => st

/-- The effect of one `background_updater` iteration on `LAST_VALUE` alone
(the value component of `background_step`; the timestamp never feeds back
into the value). -/
def updater_merge (last : Option ℚ) (o : CycleRes ℚ) : Option ℚ :=
  match o with
  | .ok raw_value => some (raw_value + UI_OFFSET)
  | .err _ => last

/-- `LAST_VALUE` after a whole session of cycle outcomes, starting from the
initial `LAST_VALUE = None` (server.py line 39). -/
def run_updater (outs : List (CycleRes ℚ)) : Option ℚ :=
  outs.foldl updater_merge none

/-- Round-half-to-even to an integer, the semantics of Python's `round`. -/
def roundHalfEven (q : ℚ) : ℤ :=
  if q - ⌊q⌋ < 1 / 2 then ⌊q⌋
  else if q - ⌊q⌋ > 1 / 2 then ⌊q⌋ + 1
  else if ⌊q⌋ % 2 = 0 then ⌊q⌋ else ⌊q⌋ + 1

/-- Python `round(x, 3)`. -/
def pyRound3 (q : ℚ) : ℚ :=
  (roundHalfEven (q * 1000) : ℚ) / 1000

/-- The `/value` route `get_value` (server.py lines 240-246): `none` models
the 503 "Value not ready yet" answer, `some` the JSON
`{"value": round(LAST_VALUE, 3)}`. -/
def get_value_route (st : PollState) : Option ℚ :=
  match st.last_value with
  | none => none
  | some v => some (pyRound3 v)

/-- Modelled from the spec ("the maximum Reported Metric observed across all
completed cycles in a session; never decreases"): the max-merge semantics the
spec ascribes to the Last-Known Value, for comparison with `run_updater`. -/
def spec_max_reported (outs : List (CycleRes ℚ)) : Option ℚ :=
  outs.foldl
    (fun acc o =>
      match o with
      | .ok raw_value =>
        match acc with
        | some m => some (max m (raw_value + UI_OFFSET))
        | none => some (raw_value + UI_OFFSET)
      | .err _ => acc)
    none

/-- The displayed metric contributed by a single cycle outcome: `some` of the
offset-adjusted Reported Metric on success, `none` on failure. -/
def success_metric (o : CycleRes ℚ) : Option ℚ :=
  match o with
  | .ok raw_value => some (raw_value + UI_OFFSET)
  | .err _ => none

/-- The Reported Metric of the most recent successful cycle in a session
(`none` before the first success), located by scanning the outcomes from the
latest backwards. -/
def last_success_value (outs : List (CycleRes ℚ)) : Option ℚ :=
  outs.reverse.findSome? success_metric

/-! ## Mock page sources used by the concrete scenarios of the claims -/

/-- A record `{"fuel_consumed": 1}`, the row shape of the C3 mock source. -/
def recFC : JVal := JVal.obj [("fuel_consumed", JVal.num 1)]

/-- Mock source with page sizes `[300, 300, 120]` (page size 300). -/
def c3pagesA : ℕ → JVal := fun pnum =>
  if pnum = 1 ∨ pnum = 2 then JVal.arr (List.replicate 300 recFC)
  else if pnum = 3 then JVal.arr (List.replicate 120 recFC)
  else JVal.arr []

/-- Mock source with page sizes `[300, 300, 0]` (page size 300). -/
def c3pagesB : ℕ → JVal := fun pnum =>
  if pnum = 1 ∨ pnum = 2 then JVal.arr (List.replicate 300 recFC)
  else JVal.arr []

/-- The end-to-end scenario source of C5: pages
`[{"fuel_consumed": 10}, {"fuel_consumed": 20}]` then
`[{"fuel_consumed": 5}]` at page size 2. -/
def c5pages : ℕ → Option JVal := fun pnum =>
  if pnum = 1 then
    some (JVal.arr [JVal.obj [("fuel_consumed", JVal.num 10)],
                    JVal.obj [("fuel_consumed", JVal.num 20)]])
  else if pnum = 2 then
    some (JVal.arr [JVal.obj [("fuel_consumed", JVal.num 5)]])
  else
    some (JVal.arr [])

/-- The field-detection sample of C4's spec scenario: one record holding both
the preferred key `total_fuel_consumed` and the fuzzy-only key
`fuel_qty_total`. -/
def c4sample : List JVal :=
  [JVal.obj [("total_fuel_consumed", JVal.num 1),
             ("fuel_qty_total", JVal.num 2)]]

set_option maxRecDepth 4000

/-! ## Helper lemmas -/

/-- `find?` returns the element at the first index satisfying the
predicate. -/
theorem find?_eq_get_of_first {α : Type} :
    ∀ (l : List α) (p : α → Bool) (i : ℕ) (h : i < l.length),
      p (l.get ⟨i, h⟩) = true →
      (∀ j (hj : j < i), p (l.get ⟨j, Nat.lt_trans hj h⟩) = false) →
      l.find? p = some (l.get ⟨i, h⟩)
  | [], _, i, h => by simp at h
  | a :: t, p, 0, h => by
    intro hp _
    simpa using List.find?_cons_of_pos t hp
  | a :: t, p, i + 1, h => by
    intro hp hlt
    have ha : p a = false := hlt 0 (Nat.succ_pos i)
    have ht := find?_eq_get_of_first t p i (Nat.lt_of_succ_lt_succ h) hp
      (fun j hj => hlt (j + 1) (Nat.succ_lt_succ hj))
    have hneg : ¬p a = true := by simp [ha]
    rw [List.find?_cons_of_neg t hneg]
    simpa using ht

/-- A record whose field coerces adds `s + v`, one that does not leaves the
accumulator untouched; either way the step is `s` plus the step from `0`. -/
theorem cc_record_step_eq_add (k : String) (s : ℚ) (r : JVal) :
    cc_record_step k s r = s + cc_record_step k 0 r := by
  cases h : get_value_by_dotted r k <;> simp [cc_record_step, h]

/-- Folding `cc_record_step` from `s` equals `s` plus folding from `0`. -/
theorem cc_foldl_eq_add (k : String) :
    ∀ (rows : List JVal) (s : ℚ),
      rows.foldl (cc_record_step k) s = s + rows.foldl (cc_record_step k) 0
  | [], s => by simp
  | r :: rows, s => by
    rw [List.foldl_cons, List.foldl_cons,
      cc_foldl_eq_add k rows (cc_record_step k s r),
      cc_foldl_eq_add k rows (cc_record_step k 0 r),
      cc_record_step_eq_add k s r, add_assoc]

/-- server.py's truthiness-guarded per-page fold computes exactly
carbonclock.py's `total + page_sum`. -/
theorem srv_page_total_eq (k : String) :
    ∀ (rows : List JVal) (total : ℚ),
      srv_page_total k rows total = total + cc_page_sum k rows
  | [], total => by simp [srv_page_total, cc_page_sum]
  | r :: rows, total => by
    have hstep :
        (match get_value_by_dotted r k with
          | some v => if v = 0 then total else total + v
          | none => total) = total + cc_record_step k 0 r := by
      cases h : get_value_by_dotted r k with
      | none => simp [cc_record_step, h]
      | some v =>
        by_cases hv : v = 0 <;> simp [cc_record_step, h, hv]
    calc srv_page_total k (r :: rows) total
        = srv_page_total k rows
            (match get_value_by_dotted r k with
              | some v => if v = 0 then total else total + v
              | none => total) := by
          simp only [srv_page_total, List.foldl_cons]
      _ = (total + cc_record_step k 0 r) + cc_page_sum k rows := by
          rw [srv_page_total_eq k rows _, hstep]
      _ = total + cc_page_sum k (r :: rows) := by
          simp only [cc_page_sum, List.foldl_cons]
          rw [cc_foldl_eq_add k rows (cc_record_step k 0 r), add_assoc]

/-- The two pagination loops agree step by step: they share control flow and
their per-page accumulations coincide by `srv_page_total_eq`. -/
theorem cc_loop_eq_srv_loop (src : ℕ → Option JVal) (psize : ℕ) :
    ∀ (fuel pnum reqs : ℕ) (fkey : Option String) (total : ℚ),
      cc_loop src psize fuel pnum fkey total reqs =
        srv_loop src psize fuel pnum fkey total reqs
  | 0, _, _, _, _ => rfl
  | fuel + 1, pnum, reqs, fkey, total => by
    simp only [cc_loop, srv_loop]
    cases src pnum with
    | none => rfl
    | some payload =>
      simp only []
      cases hE : (iter_payload_rows payload).isEmpty with
      | true => simp [hE]
      | false =>
        simp only [hE, Bool.false_eq_true, if_false]
        cases hk : resolve_fuel_key fkey (iter_payload_rows payload) with
        | err e => rfl
        | ok k =>
          by_cases hlen : (iter_payload_rows payload).length < psize
          · simp [hlen, srv_page_total_eq]
          · simp only [hlen, if_false, srv_page_total_eq]
            exact cc_loop_eq_srv_loop src psize fuel (pnum + 1) (reqs + 1)
              (some k) _

/-- Folding `updater_merge` from any initial value yields the most recent
successful metric when one exists, the initial value otherwise. -/
theorem updater_foldl_eq :
    ∀ (outs : List (CycleRes ℚ)) (init : Option ℚ),
      outs.foldl updater_merge init =
        match outs.reverse.findSome? success_metric with
        | some v => some v
        | none => init
  | [], _ => rfl
  | o :: outs, init => by
    rw [List.foldl_cons, updater_foldl_eq outs (updater_merge init o),
      List.reverse_cons, List.findSome?_append]
    cases hr : outs.reverse.findSome? success_metric with
    | some v => simp [Option.or]
    | none => cases o <;> simp [updater_merge, success_metric, Option.or]

/-- Request counting for `cc_loop` with the key already detected: over an
error-free source whose pages `pnum, …, pnum+n-2` hold at least `psize` rows
each and whose page `pnum+n-1` is short (fewer than `psize` rows, possibly
zero), the loop issues exactly `n` further page requests and completes. -/
theorem cc_loop_request_count (pages : ℕ → JVal) (psize : ℕ) :
    ∀ (fuel n pnum reqs : ℕ) (k : String) (t0 : ℚ),
      0 < psize → 1 ≤ n → n ≤ fuel →
      (∀ j, j + 1 < n →
        psize ≤ (iter_payload_rows (pages (pnum + j))).length) →
      (iter_payload_rows (pages (pnum + (n - 1)))).length < psize →
      ∃ t, cc_loop (fun i => some (pages i)) psize fuel pnum (some k) t0 reqs
        = some (.ok ⟨t, reqs + n⟩)
  | 0, n, _, _, _, _ => by
    intro _ hn hnf _ _
    omega
  | fuel + 1, n, pnum, reqs, k, t0 => by
    intro hps hn hnf hfull hshort
    simp only [cc_loop]
    rcases eq_or_lt_of_le hn with hn1 | hn2
    · -- n = 1: the very first page is short (or empty) and the loop stops.
      have hn1' : n = 1 := hn1.symm
      subst hn1'
      simp only [Nat.sub_self, Nat.add_zero] at hshort
      cases hE : (iter_payload_rows (pages pnum)).isEmpty with
      | true => exact ⟨t0, by simp [hE]⟩
      | false =>
        refine ⟨t0 + cc_page_sum k (iter_payload_rows (pages pnum)), ?_⟩
        simp [hE, resolve_fuel_key, hshort]
    · -- n ≥ 2: the first page is full, the loop continues.
      have h0 : psize ≤ (iter_payload_rows (pages pnum)).length := by
        have := hfull 0 (by omega)
        simpa using this
      have hE : (iter_payload_rows (pages pnum)).isEmpty = false := by
        cases hrows : iter_payload_rows (pages pnum) with
        | nil => rw [hrows] at h0; simp at h0; omega
        | cons a l => simp [hrows]
      have hlen : ¬(iter_payload_rows (pages pnum)).length < psize :=
        not_lt.mpr h0
      have hrec := cc_loop_request_count pages psize fuel (n - 1) (pnum + 1)
        (reqs + 1) k (t0 + cc_page_sum k (iter_payload_rows (pages pnum)))
        hps (by omega) (by omega)
        (fun j hj => by
          have := hfull (j + 1) (by omega)
          rwa [show pnum + (j + 1) = pnum + 1 + j from by omega] at this)
        (by
          rwa [show pnum + 1 + (n - 1 - 1) = pnum + (n - 1) from by omega])
      obtain ⟨t, ht⟩ := hrec
      refine ⟨t, ?_⟩
      rw [show reqs + n = reqs + 1 + (n - 1) from by omega]
      simpa [hE, resolve_fuel_key, hlen] using ht

/-! ## Evaluation lemmas (each a single kernel evaluation, kept standalone) -/

/-- "1,234.50" at "a.b": stripped, de-comma'd, parsed to `1234.5`. -/
theorem gv_eval_comma_string :
    get_value_by_dotted
        (JVal.obj [("a", JVal.obj [("b", JVal.str "1,234.50")])]) "a.b"
      = some (2469 / 2) := by
  with_unfolding_all decide

/-- A null leaf coerces to `none`. -/
theorem gv_eval_null :
    get_value_by_dotted
        (JVal.obj [("a", JVal.obj [("b", JVal.null)])]) "a.b" = none := by
  with_unfolding_all decide

/-- A missing leaf with no full-path match in the deep scan gives `none`. -/
theorem gv_eval_missing :
    get_value_by_dotted
        (JVal.obj [("a", JVal.obj [("c", JVal.num 1)])]) "a.b" = none := by
  with_unfolding_all decide

/-- A whitespace-only string (empty after stripping) gives `none`. -/
theorem gv_eval_blank :
    get_value_by_dotted
        (JVal.obj [("a", JVal.obj [("b", JVal.str "   ")])]) "a.b" = none := by
  with_unfolding_all decide

/-- An unparsable string gives `none` (the swallowed `ValueError`). -/
theorem gv_eval_unparsable :
    get_value_by_dotted
        (JVal.obj [("a", JVal.obj [("b", JVal.str "12x4")])]) "a.b" = none := by
  with_unfolding_all decide

/-! ## Claim theorems -/

/-- C6: Value Coercer behaviour of `get_value_by_dotted`: path "a.b" on
`{"a": {"b": "1,234.50"}}` gives `1234.5` (whitespace stripped, thousands
commas removed, parsed as float); on `{"a": {"b": None}}` it gives none; on
`{"a": {"c": 1}}` (missing leaf, no case-insensitive full-path match in the
deep scan) it gives none; a whitespace-only string (empty after stripping)
and an unparsable string give none rather than an exception (the model's
parser is total, returning `none` exactly where the source's `except` block
returns `None`). -/
theorem c6_value_coercer_cases :
    get_value_by_dotted
        (JVal.obj [("a", JVal.obj [("b", JVal.str "1,234.50")])]) "a.b"
      = some (2469 / 2) ∧
    get_value_by_dotted
        (JVal.obj [("a", JVal.obj [("b", JVal.null)])]) "a.b" = none ∧
    get_value_by_dotted
        (JVal.obj [("a", JVal.obj [("c", JVal.num 1)])]) "a.b" = none ∧
    get_value_by_dotted
        (JVal.obj [("a", JVal.obj [("b", JVal.str "   ")])]) "a.b" = none ∧
    get_value_by_dotted
        (JVal.obj [("a", JVal.obj [("b", JVal.str "12x4")])]) "a.b" = none :=
  ⟨gv_eval_comma_string, gv_eval_null, gv_eval_missing, gv_eval_blank,
    gv_eval_unparsable⟩

/-- C10: `get_value_by_dotted` is total at the public interface: the Lean
embedding is accepted by the termination checker (the dotted-part descent is
structural on the split path, the deep scan is structural on the record) and
returns `Option ℚ`, so for every record and every dotted path it yields
either a rational or `none` — never an exception; likewise the structural
descent itself always yields a leaf or `none`. -/
theorem c10_get_value_total :
    ∀ (row : JVal) (dotted : String),
      (get_value_by_dotted row dotted = none ∨
        ∃ q : ℚ, get_value_by_dotted row dotted = some q) ∧
      (descend dotted (pySplitDot dotted) row = none ∨
        ∃ v : JVal, descend dotted (pySplitDot dotted) row = some v) := by
  intro row dotted
  constructor
  · cases get_value_by_dotted row dotted with
    | none => exact Or.inl rfl
    | some q => exact Or.inr ⟨q, rfl⟩
  · cases descend dotted (pySplitDot dotted) row with
    | none => exact Or.inl rfl
    | some v => exact Or.inr ⟨v, rfl⟩

/-- C8: `lng_to_kg` returns its input unchanged when the unit lower-cases to
"kg", the input times the density when it lower-cases to "l", and the
invalid-unit error exactly when the unit is (case-insensitively) neither;
the function's arguments contain no network state, so the error cannot
depend on it. -/
theorem c8_lng_to_kg_units :
    ∀ (v density : ℚ) (unit : String),
      (pyLower unit = "kg" → lng_to_kg v unit density = .ok v) ∧
      (pyLower unit = "l" → lng_to_kg v unit density = .ok (v * density)) ∧
      (lng_to_kg v unit density = .err .invalidUnit ↔
        (pyLower unit ≠ "kg" ∧ pyLower unit ≠ "l")) := by
  intro v density unit
  by_cases h1 : pyLower unit = "kg"
  · refine ⟨fun _ => by simp [lng_to_kg, h1], fun h2 => ?_, ?_⟩
    · rw [h1] at h2; exact absurd h2 (by decide)
    · simp [lng_to_kg, h1]
  · by_cases h2 : pyLower unit = "l"
    · exact ⟨fun h => absurd h h1, fun _ => by simp [lng_to_kg, h1, h2],
        by simp [lng_to_kg, h1, h2]⟩
    · exact ⟨fun h => absurd h h1, fun h => absurd h h2,
        by simp [lng_to_kg, h1, h2]⟩

/-- C8 witness: the three behaviours at concrete inputs "Kg", "L" and
"litres". -/
theorem c8_lng_to_kg_units_witness :
    lng_to_kg 7 "Kg" 2 = .ok 7 ∧ lng_to_kg 7 "L" 2 = .ok 14 ∧
      lng_to_kg 7 "litres" 2 = .err .invalidUnit := by
  refine ⟨(c8_lng_to_kg_units 7 2 "Kg").1 (by decide), ?_, ?_⟩
  · have h := (c8_lng_to_kg_units 7 2 "L").2.1 (by decide)
    rw [h]; norm_num
  · exact (c8_lng_to_kg_units 7 2 "litres").2.2.mpr ⟨by decide, by decide⟩

/-- C7: when a fetch cycle fails with any fatal error, the polling state is
unchanged — `background_step` on an `err` outcome is the identity on
`LAST_VALUE` and `LAST_TS`, the `/value` route output is unchanged, and any
run of consecutive failing cycles leaves the whole state where the last
successful cycle put it. -/
theorem c7_failure_keeps_last_value :
    ∀ (st : PollState) (e : CycleErr) (now : ℚ)
      (fails : List (CycleErr × ℚ)),
      background_step st (.err e) now = st ∧
      get_value_route (background_step st (.err e) now) = get_value_route st ∧
      fails.foldl (fun s p => background_step s (.err p.1) p.2) st = st := by
  intro st e now fails
  refine ⟨rfl, rfl, ?_⟩
  induction fails with
  | nil => rfl
  | cons p t ih => simp only [List.foldl_cons]; exact ih

/-- The field of `{"fuel_consumed": 10}` coerces to `10`. -/
theorem gv_eval_fc10 :
    get_value_by_dotted (JVal.obj [("fuel_consumed", JVal.num 10)])
      "fuel_consumed" = some 10 := by
  with_unfolding_all decide

/-- A record without the detected field contributes nothing. -/
theorem gv_eval_fc_missing :
    get_value_by_dotted (JVal.obj [("x", JVal.num 3)])
      "fuel_consumed" = none := by
  with_unfolding_all decide

/-- C2 counterexample: processing one more record can make `total_input`
smaller, because the source adds every coercible value, including negative
ones — page `[{"fuel_consumed": 10}, {"fuel_consumed": -1}]` sums to 9,
below the 10 reached after its first record. -/
theorem c2_counterexample :
    cc_page_sum "fuel_consumed"
        [JVal.obj [("fuel_consumed", JVal.num 10)],
         JVal.obj [("fuel_consumed", JVal.num (-1))]] <
      cc_page_sum "fuel_consumed"
        [JVal.obj [("fuel_consumed", JVal.num 10)]] := by
  with_unfolding_all decide

/-- C2 amended: within one fetch cycle the running total is non-decreasing
record by record, provided every record's coerced value is non-negative;
records whose field fails to coerce (missing, null, unparsable) leave the
total unchanged rather than aborting the cycle. -/
theorem c2_total_monotone_of_nonneg :
    (∀ (k : String) (s : ℚ) (r : JVal),
      get_value_by_dotted r k = none → cc_record_step k s r = s) ∧
    (∀ (k : String) (rows : List JVal) (s : ℚ),
      (∀ r ∈ rows, ∀ v : ℚ, get_value_by_dotted r k = some v → 0 ≤ v) →
      s ≤ rows.foldl (cc_record_step k) s) := by
  constructor
  · intro k s r h
    simp [cc_record_step, h]
  · intro k rows
    induction rows with
    | nil => intro s _; simp
    | cons r t ih =>
      intro s hval
      rw [List.foldl_cons]
      have hs : s ≤ cc_record_step k s r := by
        cases h : get_value_by_dotted r k with
        | none => simp [cc_record_step, h]
        | some v =>
          have hv := hval r (List.mem_cons_self r t) v h
          simp only [cc_record_step, h]
          linarith
      exact le_trans hs (ih (cc_record_step k s r)
        (fun r' hr' v hv => hval r' (List.mem_cons_of_mem r hr') v hv))

/-- C2 witness: the amended monotonicity and the skip behaviour at concrete
inputs — a page of one coercible record (value 10) and one record without
the field never drops below the starting total `0`. -/
theorem c2_total_monotone_witness :
    cc_record_step "fuel_consumed" 0 (JVal.obj [("x", JVal.num 3)]) = 0 ∧
    (0 : ℚ) ≤ [JVal.obj [("fuel_consumed", JVal.num 10)],
               JVal.obj [("x", JVal.num 3)]].foldl
                 (cc_record_step "fuel_consumed") 0 := by
  constructor
  · exact c2_total_monotone_of_nonneg.1 "fuel_consumed" 0 _ gv_eval_fc_missing
  · refine c2_total_monotone_of_nonneg.2 "fuel_consumed" _ 0 ?_
    intro r hr v hv
    simp only [List.mem_cons, List.not_mem_nil, or_false] at hr
    rcases hr with h | h
    · subst h
      rw [gv_eval_fc10] at hv
      have hv10 : (10 : ℚ) = v := Option.some.inj hv
      rw [← hv10]; norm_num
    · subst h
      rw [gv_eval_fc_missing] at hv
      cases hv

/-- C4: whenever the candidate set of a sample contains the lower-cased form
of a preference-list entry, `detect_fuel_key` returns the first such entry in
its original casing — the tier-2 fuzzy scan (keys containing "fuel" with
"consum" or "total") is never consulted, whatever fuzzy candidates the sample
also holds. -/
theorem c4_preference_list_wins :
    ∀ (sample : List JVal) (i : ℕ) (h : i < PREFERRED_KEYS.length),
      (candidate_keys sample).contains
          (pyLower (PREFERRED_KEYS.get ⟨i, h⟩)) = true →
      (∀ j (hj : j < i),
        (candidate_keys sample).contains
          (pyLower (PREFERRED_KEYS.get ⟨j, Nat.lt_trans hj h⟩)) = false) →
      detect_fuel_key sample = some (PREFERRED_KEYS.get ⟨i, h⟩) := by
  intro sample i h hp hlt
  have hfind := find?_eq_get_of_first PREFERRED_KEYS
    (fun p => (candidate_keys sample).contains (pyLower p)) i h hp hlt
  simp only [detect_fuel_key]
  rw [hfind]

/-- C4 witness: the spec's own scenario — a sample holding both
`total_fuel_consumed` and the fuzzy-only `fuel_qty_total` detects
`total_fuel_consumed`. -/
theorem c4_preference_list_wins_witness :
    detect_fuel_key c4sample = some "total_fuel_consumed" :=
  c4_preference_list_wins c4sample 0 (by decide) (by decide)
    (fun j hj => absurd hj (Nat.not_lt_zero j))

/-- C9: carbonclock.py's aggregation (add coerced values that are not None)
and server.py's (add only truthy coerced values, additionally skipping 0.0)
compute identical loop states — running total and request count — and
identical Reported Metrics on every source, page size, unit, density and
fuel bound: skipping a zero summand never changes an exact sum. -/
theorem c9_cc_srv_equivalent :
    ∀ (src : ℕ → Option JVal) (psize fuel pnum reqs : ℕ)
      (fkey : Option String) (total : ℚ)
      (lng_unit : String) (lng_density : ℚ),
      cc_loop src psize fuel pnum fkey total reqs =
        srv_loop src psize fuel pnum fkey total reqs ∧
      cc_fetch_and_sum src psize lng_unit lng_density fuel =
        srv_fetch_and_sum src psize lng_unit lng_density fuel := by
  intro src psize fuel pnum reqs fkey total lng_unit lng_density
  refine ⟨cc_loop_eq_srv_loop src psize fuel pnum reqs fkey total, ?_⟩
  simp only [cc_fetch_and_sum, srv_fetch_and_sum,
    cc_loop_eq_srv_loop src psize fuel 1 0 none 0]

/-- `LAST_VALUE` after the session `[ok 5, ok 3]` is the latest value 3. -/
theorem run_updater_eval_two :
    run_updater [CycleRes.ok 5, CycleRes.ok 3] = some 3 := by
  simp [run_updater, updater_merge, UI_OFFSET]

/-- `LAST_VALUE` after the session `[ok 5]` is 5. -/
theorem run_updater_eval_one :
    run_updater [CycleRes.ok 5] = some 5 := by
  simp [run_updater, updater_merge, UI_OFFSET]

/-- The spec's max-merge value over the session `[ok 5, ok 3]` is 5. -/
theorem spec_max_eval_two :
    spec_max_reported [CycleRes.ok 5, CycleRes.ok 3] = some 5 := by
  simp only [spec_max_reported, List.foldl_cons, List.foldl_nil, UI_OFFSET,
    add_zero]
  norm_num

/-- C1 counterexample: the code overwrites `LAST_VALUE` with each successful
cycle's metric instead of max-merging — after successful cycles reporting 5
then 3, `LAST_VALUE` is 3 while the maximum observed metric is 5, so the
displayed value decreased (3 < 5) and differs from the claimed maximum. -/
theorem c1_counterexample :
    run_updater [CycleRes.ok 5, CycleRes.ok 3] = some 3 ∧
    spec_max_reported [CycleRes.ok 5, CycleRes.ok 3] = some 5 ∧
    run_updater [CycleRes.ok 5] = some 5 ∧ (3 : ℚ) < 5 :=
  ⟨run_updater_eval_two, spec_max_eval_two, run_updater_eval_one,
    by norm_num⟩

/-- C1 amended: `LAST_VALUE` equals the (offset-adjusted) Reported Metric of
the most recent successful cycle, `none` before any success; failed cycles
leave it unchanged, but it is not in general non-decreasing and need not be
the maximum over the session. -/
theorem c1_last_value_is_latest_success :
    ∀ outs : List (CycleRes ℚ),
      run_updater outs = last_success_value outs := by
  intro outs
  rw [run_updater, updater_foldl_eq outs none, last_success_value]
  cases h : outs.reverse.findSome? success_metric <;> simp [h]

/-- The C5 scenario's pagination loop: total 35 after exactly 2 page
requests. -/
theorem c5_loop_eval :
    cc_loop c5pages 2 3 1 none 0 0 = some (.ok ⟨35, 2⟩) := by
  with_unfolding_all decide

/-- Unit "kg" passes the total through unchanged. -/
theorem c5_lng_kg_eval : lng_to_kg 35 "kg" (45 / 100) = .ok 35 := by
  with_unfolding_all decide

/-- Unit "L" with density 0.45 turns input 100 into 45 kg. -/
theorem c5_lng_L_eval : lng_to_kg 100 "L" (45 / 100) = .ok 45 := by
  with_unfolding_all decide

/-- The C5 scenario end to end: Reported Metric `0.03241`. -/
theorem c5_fetch_eval :
    cc_fetch_and_sum c5pages 2 "kg" (45 / 100) 3
      = some (.ok (3241 / 100000)) := by
  simp only [cc_fetch_and_sum, c5_loop_eval, c5_lng_kg_eval]
  simp only [Option.some.injEq, CycleRes.ok.injEq]
  norm_num [SAVINGS_PER_KG]

/-- C5: end-to-end arithmetic of one cycle — for pages
`[{"fuel_consumed": 10}, {"fuel_consumed": 20}]` then
`[{"fuel_consumed": 5}]` at page size 2 and unit "kg", the running input
total is 35 (over 2 page requests) and the Reported Metric is
35 × 0.926 / 1000 = 0.03241; and for input total 100 with unit "L" and
density 0.45 the mass is 45 kg and the Reported Metric is
45 × 0.926 / 1000 = 0.04167 exactly (so equal to its own rounding to 5
places). -/
theorem c5_end_to_end_arithmetic :
    cc_loop c5pages 2 3 1 none 0 0 = some (.ok ⟨35, 2⟩) ∧
    cc_fetch_and_sum c5pages 2 "kg" (45 / 100) 3
      = some (.ok (3241 / 100000)) ∧
    lng_to_kg 100 "L" (45 / 100) = .ok 45 ∧
    (45 : ℚ) * SAVINGS_PER_KG / 1000 = 4167 / 100000 :=
  ⟨c5_loop_eval, c5_fetch_eval, c5_lng_L_eval,
    by norm_num [SAVINGS_PER_KG]⟩

/-- Page 1 of the `[300, 300, 120]` mock holds 300 rows. -/
theorem c3A_len1 : (iter_payload_rows (c3pagesA 1)).length = 300 := by
  decide

/-- Page 2 of the `[300, 300, 120]` mock holds 300 rows. -/
theorem c3A_len2 : (iter_payload_rows (c3pagesA 2)).length = 300 := by
  decide

/-- Page 3 of the `[300, 300, 120]` mock holds 120 rows. -/
theorem c3A_len3 : (iter_payload_rows (c3pagesA 3)).length = 120 := by
  decide

/-- Page 1 of the `[300, 300, 0]` mock holds 300 rows. -/
theorem c3B_len1 : (iter_payload_rows (c3pagesB 1)).length = 300 := by
  decide

/-- Page 2 of the `[300, 300, 0]` mock holds 300 rows. -/
theorem c3B_len2 : (iter_payload_rows (c3pagesB 2)).length = 300 := by
  decide

/-- Page 3 of the `[300, 300, 0]` mock is empty. -/
theorem c3B_len3 : (iter_payload_rows (c3pagesB 3)).length = 0 := by
  decide

/-- Detection on the first mock page finds `fuel_consumed`. -/
theorem c3A_detect :
    detect_fuel_key ((iter_payload_rows (c3pagesA 1)).take 10)
      = some "fuel_consumed" := by
  decide

/-- Detection on the first page of the second mock finds `fuel_consumed`. -/
theorem c3B_detect :
    detect_fuel_key ((iter_payload_rows (c3pagesB 1)).take 10)
      = some "fuel_consumed" := by
  decide

/-- C3: the pagination loop stops exactly at the first page that is empty or
strictly shorter than the page size, and otherwise increments the page
number and continues — over any error-free source whose pages 1..n-1 are
exactly full and whose page n is short or empty (and whose first page
detects a key), the cycle completes with exactly n page requests; in
particular the `[300, 300, 120]` mock at page size 300 issues exactly 3
requests, and so does the `[300, 300, 0]` mock. -/
theorem c3_pagination_termination :
    (∀ (pages : ℕ → JVal) (psize n fuel : ℕ),
      0 < psize → 1 ≤ n → n ≤ fuel →
      (∀ j, j + 1 < n → (iter_payload_rows (pages (1 + j))).length = psize) →
      (iter_payload_rows (pages n)).length < psize →
      (iter_payload_rows (pages 1) ≠ [] →
        ∃ k, detect_fuel_key ((iter_payload_rows (pages 1)).take 10) = some k
          ∧ k ≠ "") →
      ∃ t, cc_loop (fun i => some (pages i)) psize fuel 1 none 0 0
        = some (.ok ⟨t, n⟩)) ∧
    (∃ t, cc_loop (fun i => some (c3pagesA i)) 300 3 1 none 0 0
      = some (.ok ⟨t, 3⟩)) ∧
    (∃ t, cc_loop (fun i => some (c3pagesB i)) 300 3 1 none 0 0
      = some (.ok ⟨t, 3⟩)) := by
  have general :
      ∀ (pages : ℕ → JVal) (psize n fuel : ℕ),
        0 < psize → 1 ≤ n → n ≤ fuel →
        (∀ j, j + 1 < n →
          (iter_payload_rows (pages (1 + j))).length = psize) →
        (iter_payload_rows (pages n)).length < psize →
        (iter_payload_rows (pages 1) ≠ [] →
          ∃ k, detect_fuel_key ((iter_payload_rows (pages 1)).take 10)
            = some k ∧ k ≠ "") →
        ∃ t, cc_loop (fun i => some (pages i)) psize fuel 1 none 0 0
          = some (.ok ⟨t, n⟩) := by
    intro pages psize n fuel hps hn hfuel hfull hshort hdet
    cases fuel with
    | zero => exfalso; omega
    | succ f =>
      simp only [cc_loop]
      cases hE : (iter_payload_rows (pages 1)).isEmpty with
      | true =>
        have hrows : iter_payload_rows (pages 1) = [] := by
          simpa [List.isEmpty_iff] using hE
        have hn1 : n = 1 := by
          by_contra hne
          have h2 := hfull 0 (by omega)
          rw [show (1 : ℕ) + 0 = 1 from rfl, hrows] at h2
          simp at h2
          omega
        subst hn1
        exact ⟨0, by simp [hE]⟩
      | false =>
        have hne : iter_payload_rows (pages 1) ≠ [] := by
          intro hnil
          rw [hnil] at hE
          simp at hE
        obtain ⟨k, hdk, hk⟩ := hdet hne
        have hres : resolve_fuel_key none (iter_payload_rows (pages 1))
            = .ok k := by
          simp [resolve_fuel_key, hdk, hk]
        rcases eq_or_lt_of_le hn with h1 | h2
        · have hn1 : n = 1 := h1.symm
          subst hn1
          have hlen : (iter_payload_rows (pages 1)).length < psize := hshort
          exact ⟨0 + cc_page_sum k (iter_payload_rows (pages 1)),
            by simp [hE, hres, hlen]⟩
        · have h0 : (iter_payload_rows (pages 1)).length = psize := by
            have := hfull 0 (by omega)
            simpa using this
          have hlen : ¬(iter_payload_rows (pages 1)).length < psize := by
            omega
          have hrec := cc_loop_request_count pages psize f (n - 1) 2 1 k
            (0 + cc_page_sum k (iter_payload_rows (pages 1)))
            hps (by omega) (by omega)
            (fun j hj => by
              have := hfull (j + 1) (by omega)
              rw [show (1 : ℕ) + (j + 1) = 2 + j from by omega] at this
              omega)
            (by
              rw [show (2 : ℕ) + (n - 1 - 1) = n from by omega]
              exact hshort)
          obtain ⟨t, ht⟩ := hrec
          rw [show (1 : ℕ) + (n - 1) = n from by omega] at ht
          exact ⟨t, by simpa [hE, hres, hlen] using ht⟩
  refine ⟨general, ?_, ?_⟩
  · refine general c3pagesA 300 3 3 (by norm_num) (by norm_num) le_rfl
      ?_ ?_ ?_
    · intro j hj
      have hj2 : j < 2 := by omega
      interval_cases j
      · simpa using c3A_len1
      · simpa using c3A_len2
    · rw [c3A_len3]; norm_num
    · exact fun _ => ⟨"fuel_consumed", c3A_detect, by decide⟩
  · refine general c3pagesB 300 3 3 (by norm_num) (by norm_num) le_rfl
      ?_ ?_ ?_
    · intro j hj
      have hj2 : j < 2 := by omega
      interval_cases j
      · simpa using c3B_len1
      · simpa using c3B_len2
    · rw [c3B_len3]; norm_num
    · exact fun _ => ⟨"fuel_consumed", c3B_detect, by decide⟩

/-- C3 witness: the general request-count statement applied to the
`[300, 300, 120]` mock with a larger fuel bound, all hypotheses discharged
concretely. -/
theorem c3_pagination_termination_witness :
    ∃ t, cc_loop (fun i => some (c3pagesA i)) 300 5 1 none 0 0
      = some (.ok ⟨t, 3⟩) := by
  refine c3_pagination_termination.1 c3pagesA 300 3 5 (by norm_num)
    (by norm_num) (by norm_num) ?_ ?_ ?_
  · intro j hj
    have hj2 : j < 2 := by omega
    interval_cases j
    · simpa using c3A_len1
    · simpa using c3A_len2
  · rw [c3A_len3]; norm_num
  · exact fun _ => ⟨"fuel_consumed", c3A_detect, by decide⟩

end CarbonClock
